import Mathlib

/-!
Verification development for the failmail SMTP summarizer.

Each definition is a shallow embedding of a function from the repository
(message_stores.go, session.go / its evolved variant, the message buffer,
the address rewriter, the maildir-backed disk store).  Go machine state is
made explicit: struct mutation becomes state passing, `nil`-pointer
dereference becomes an `Option` result (`none` models a runtime panic),
Go `error` results become `Option`/sum values.  Times are modeled as `Int`
(Unix nanoseconds / seconds; only their order matters to the code).
-/

namespace Failmail

/-- Character-wise lowercasing, the model of `strings.ToLower` (the strings
the code lowercases are ASCII command tokens and addresses, where Go's
Unicode lowering is exactly per-character lowering). -/
def strToLower (s : String) : String := (s.toList.map Char.toLower).asString

/-! ## In-memory message store (`message_stores.go`: `MemoryStore`, `TimeOrdered`)

`TimeOrdered` implements both `sort.Interface` and `heap.Interface` over a
slice of `StoredMessage`, with `Less i j ↔ received[i] ≥ received[j]`.
`MemoryStore.Add` pushes onto the heap (Go `container/heap`), and
`MessagesNewerThan` runs `sort.Search` over the heap's backing array.
Message payloads are irrelevant to the store's bookkeeping and are elided:
a stored message is its id and its receive time. -/

structure StoredMsg where
  id : Nat
  received : Int
  deriving DecidableEq, Repr

/-- Placeholder element for out-of-range reads (never reached on the
in-range indices the Go code uses). -/
def dummyMsg : StoredMsg := ⟨0, 0⟩

/-- Swap two positions of a list (Go `Swap(i, j)` on the backing slice). -/
def listSwap (l : List StoredMsg) (i j : Nat) : List StoredMsg :=
  (l.set i (l.getD j dummyMsg)).set j (l.getD i dummyMsg)

/-- The comparison of `TimeOrdered.Less`: `t[i].Received.UnixNano() >= t[j].Received.UnixNano()`. -/
def timeOrderedLess (l : List StoredMsg) (i j : Nat) : Bool :=
  (l.getD i dummyMsg).received ≥ (l.getD j dummyMsg).received

/-- The sift-up of Go `container/heap` (`up`): while `j` has a parent `i`
and `Less(j, i)`, swap and continue from `i`.  The index strictly
decreases on every iteration, so fuel `j + 1` (supplied by `heapUp`) never
runs out. -/
def heapUpAux : Nat → List StoredMsg → Nat → List StoredMsg
  | 0, l, _ => l
  | fuel + 1, l, j =>
    let i := (j - 1) / 2
    if i == j then l
    else if timeOrderedLess l j i then heapUpAux fuel (listSwap l i j) i
    else l

def heapUp (l : List StoredMsg) (j : Nat) : List StoredMsg := heapUpAux (j + 1) l j

/-- Go `heap.Push`: append the element, then sift up from the last index. -/
def heapPush (l : List StoredMsg) (x : StoredMsg) : List StoredMsg :=
  heapUp (l ++ [x]) l.length

structure MemoryStore where
  messages : List StoredMsg
  counter : Nat
  deriving DecidableEq, Repr

/-- `NewMemoryStore`: empty heap, counter 0. -/
def newMemoryStore : MemoryStore := ⟨[], 0⟩

/-- `MemoryStore.Add`: the new message gets the counter as id and `now` as
receive time and is pushed onto the heap; the counter advances. -/
def memAdd (s : MemoryStore) (now : Int) : MemoryStore :=
  { messages := heapPush s.messages ⟨s.counter, now⟩, counter := s.counter + 1 }

/-- Go `sort.Search(n, f)`: binary search for the least `i` with `f i`,
assuming `f` is monotone over `[0, n)`.  The width `j - i` strictly
decreases on every iteration, so fuel `n + 1` (supplied by `sortSearch`)
never runs out. -/
def sortSearchAux (f : Nat → Bool) : Nat → Nat → Nat → Nat
  | 0, i, _ => i
  | fuel + 1, i, j =>
    if i < j then
      let m := (i + j) / 2
      if f m then sortSearchAux f fuel i m else sortSearchAux f fuel (m + 1) j
    else i

def sortSearch (n : Nat) (f : Nat → Bool) : Nat := sortSearchAux f (n + 1) 0 n

/-- `MemoryStore.MessagesNewerThan(t)`: `i := sort.Search(len, fun k => t ≥ received[k])`,
then return the slice prefix `[0:i]`.  (The backing array is a heap, not a
sorted slice, so the search predicate is not monotone in general.) -/
def memMessagesNewerThan (s : MemoryStore) (t : Int) : List StoredMsg :=
  let i := sortSearch s.messages.length
    (fun k => t ≥ (s.messages.getD k dummyMsg).received)
  s.messages.take i

/-! ## Disk message store (`message_stores.go`: `DiskStore`; `maildir.go`: `Maildir`)

The filesystem is modeled as the two directory listings the store touches:
content files in `cur/` and metadata files in `.meta/`, the latter carrying
the mtime that `writeMetadata` sets to the receive time via `os.Chtimes`.
`Maildir.Write` generates a fresh name (tmp-write + rename, returning the
name with the `:2,S` maildir suffix); freshness is modeled with the
maildir's message counter.  `readMessage` re-reads a metadata/content pair
written by `Add`; both reads parse data this store itself serialized, so
they are modeled as succeeding exactly when both files exist. -/

structure DiskStoredMsg where
  id : String
  received : Int
  deriving DecidableEq, Repr

structure DiskFS where
  cur : List String
  meta : List (String × Int)
  counter : Nat
  deriving DecidableEq, Repr

/-- `Maildir.Write` then `DiskStore.writeMetadata`: the content file is
written (tmp, then renamed into `cur/` with the `:2,S` suffix) and the
metadata file is written last, its mtime set to `now`. -/
def diskAdd (fs : DiskFS) (now : Int) : DiskFS × String :=
  let name := toString (fs.counter + 1) ++ ":2,S"
  ({ cur := fs.cur ++ [name]
     meta := fs.meta ++ [(name, now)]
     counter := fs.counter + 1 }, name)

/-- A crash and restart: the directory contents persist; the in-process
maildir counter resets.  `NewDiskStore` holds no other state. -/
def diskReopen (fs : DiskFS) : DiskFS := { fs with counter := 0 }

/-- `DiskStore.MessagesNewerThan(t)`: list the `.meta` directory, skip
entries whose mtime is `Before(t)`, and read each remaining message
(metadata plus content file); read failures go to the error list and the
message is dropped from the result. -/
def diskMessagesNewerThan (fs : DiskFS) (t : Int) : List DiskStoredMsg :=
  fs.meta.filterMap fun nm =>
    if nm.2 < t then none
    else if fs.cur.contains nm.1 then some ⟨nm.1, nm.2⟩
    else none

/-- `DiskStore.Remove`: delete the metadata first, then the content. -/
def diskRemove (fs : DiskFS) (name : String) : DiskFS :=
  { fs with
    meta := fs.meta.filter (fun nm => !(nm.1 == name))
    cur := fs.cur.filter (fun c => !(c == name)) }

/-! ## Message buffer (`buffer.go` era of part_005: `Compact`, `batches`,
`MessageBuffer.NeedsFlush`, `MessageBuffer.Flush`)

A buffered stored message is modeled by the attributes the buffer reads:
its store id, its SMTP recipients, its receive time, its parsed `Date:`
header (`none` when `Header.Date()` errors), and its body and subject.
The user-supplied batch/group key functions (`GroupBy`) are parameters. -/

structure BufMsg where
  id : Nat
  recipients : List String
  received : Int
  date : Option Int
  body : String
  subject : String
  deriving DecidableEq, Repr

def GroupBy : Type := BufMsg → String

structure UniqueMessage where
  start : Option Int
  endT : Option Int
  body : String
  subject : String
  template : String
  count : Nat
  deriving DecidableEq, Repr

/-- The body of `Compact`'s per-message fold: fold `msg` into the
`UniqueMessage` for its key.  Go zero `time.Time` (`IsZero`) is `none`;
`date.Before`/`date.After` are strict comparisons; body and subject are
overwritten by every message (last-writer-wins); the count is exact. -/
def updateUnique (m : BufMsg) (u : UniqueMessage) : UniqueMessage :=
  let u :=
    match m.date with
    | none => u
    | some d =>
      let newStart :=
        match u.start with
        | none => some d
        | some s => if d < s then some d else some s
      let newEnd :=
        match u.endT with
        | none => some d
        | some e => if e < d then some d else some e
      { u with start := newStart, endT := newEnd }
  { u with body := m.body, subject := m.subject, count := u.count + 1 }

/-- Apply `f` to the (unique) list entry whose template is `key`
(the in-place mutation of `uniques[key]` through its pointer). -/
def updateByTemplate (l : List UniqueMessage) (key : String)
    (f : UniqueMessage → UniqueMessage) : List UniqueMessage :=
  match l with
  | [] => []
  | u :: us => if u.template == key then f u :: us else u :: updateByTemplate us key f

/-- The `UniqueMessage` freshly allocated for a not-yet-seen key
(`&UniqueMessage{Template: key}`). -/
def freshUnique (key : String) : UniqueMessage :=
  { start := none, endT := none, body := "", subject := "", template := key, count := 0 }

/-- One iteration of `Compact`'s loop: allocate a `UniqueMessage` for a new
key (appended to the result list), then fold the message into its key's
entry. -/
def compactStep (g : GroupBy) (res : List UniqueMessage) (m : BufMsg) : List UniqueMessage :=
  let key := g m
  let res := if res.any (fun u => u.template == key) then res else res ++ [freshUnique key]
  updateByTemplate res key (updateUnique m)

/-- `Compact(group, stored)`: one `UniqueMessage` per distinct group key,
appended in the order keys are first seen. -/
def Compact (g : GroupBy) (stored : List BufMsg) : List UniqueMessage :=
  stored.foldl (compactStep g) []

/-- Append an element to a list unless it is already present (the
observable effect of inserting into a Go `map` and later listing its
keys in insertion order). -/
def addNew (acc : List String) (x : String) : List String :=
  if x ∈ acc then acc else acc ++ [x]

/-- Modelled from the spec: the distinct elements of a list, each kept at
the position of its first occurrence.  Used as the specification-side
description of `Compact`'s key order. -/
def firstOccurrences (l : List String) : List String :=
  l.foldl addNew []

/-! ### Batch state and the flush predicate -/

/-- `RecipientKey{Key, Recipient}`. -/
abbrev RecipientKey := String × String

def lookupD {α : Type} (l : List (RecipientKey × α)) (k : RecipientKey) (d : α) : α :=
  match l.find? (fun kv => kv.1 == k) with
  | some kv => kv.2
  | none => d

def containsKey {α : Type} (l : List (RecipientKey × α)) (k : RecipientKey) : Bool :=
  (l.find? (fun kv => kv.1 == k)).isSome

/-- Set a key's value in an association list (Go map assignment). -/
def setA {α : Type} : List (RecipientKey × α) → RecipientKey → α → List (RecipientKey × α)
  | [], k, v => [(k, v)]
  | kv :: rest, k, v => if kv.1 == k then (k, v) :: rest else kv :: setA rest k v

def eraseKey {α : Type} (l : List (RecipientKey × α)) (k : RecipientKey) :
    List (RecipientKey × α) :=
  l.filter (fun kv => !(kv.1 == k))

/-- The summarizer's per-`RecipientKey` state (`batches`): earliest-recorded
and latest-recorded receive time and the messages of each batch.  Missing
keys read as the Go zero time, modeled as `0`. -/
structure Batches where
  first : List (RecipientKey × Int)
  last : List (RecipientKey × Int)
  messages : List (RecipientKey × List BufMsg)
  deriving DecidableEq, Repr

def emptyBatches : Batches := ⟨[], [], []⟩

/-- `batches.Add`: on a key's first message, record it in `first` and start
the message list; always overwrite `last` and append the message. -/
def batchesAdd (b : Batches) (key : RecipientKey) (s : BufMsg) : Batches :=
  let b :=
    if containsKey b.first key then b
    else { b with first := setA b.first key s.received, messages := setA b.messages key [] }
  { b with
    last := setA b.last key s.received
    messages := setA b.messages key (lookupD b.messages key [] ++ [s]) }

/-- `batches.Remove`: delete the key from all three maps. -/
def batchesRemove (b : Batches) (key : RecipientKey) : Batches :=
  { first := eraseKey b.first key
    last := eraseKey b.last key
    messages := eraseKey b.messages key }

/-- `MessageBuffer.NeedsFlush(now, key)`:
`!(now.Sub(first[key]) < HardLimit && now.Sub(last[key]) < SoftLimit)`. -/
def needsFlush (b : Batches) (softLimit hardLimit now : Int) (key : RecipientKey) : Bool :=
  !((now - lookupD b.first key 0 < hardLimit) && (now - lookupD b.last key 0 < softLimit))

/-- Modelled from the spec's flush predicate: a batch is due iff the flush
is forced, or `T − earliest ≥ hard-limit`, or `T − latest ≥ soft-limit`,
where earliest/latest are the minimum and maximum receive times over the
batch's messages. -/
def specDue (msgs : List BufMsg) (softLimit hardLimit now : Int) (force : Bool) : Bool :=
  force
    || (msgs.map BufMsg.received).any (fun r => now - r ≥ hardLimit
          && (msgs.map BufMsg.received).all (fun r2 => r ≤ r2))
    || (msgs.map BufMsg.received).any (fun r => now - r ≥ softLimit
          && (msgs.map BufMsg.received).all (fun r2 => r2 ≤ r))

/-- `NormalizeAddress`: parse the address and lowercase it; an unparseable
address passes through verbatim.  The `net/mail` parse is modeled as the
identity on the bare addresses this development uses, so normalization is
plain lowercasing. -/
def normalizeAddress (email : String) : String := strToLower email

/-- The removal bookkeeping of `Flush`: `toRemove` and `toKeep` are Go
`map[MessageId]bool` sets, modeled as duplicate-free lists (iteration order
of a Go map is arbitrary; the claims checked here are order-independent). -/
structure FlushState where
  b : Batches
  toRemove : List Nat
  toKeep : List Nat
  deriving DecidableEq, Repr

def insertSet (l : List Nat) (x : Nat) : List Nat :=
  if l.contains x then l else l ++ [x]

/-- One iteration of `Flush`'s summarize loop for the entry `(key, msgs)`:
if the batch is due (or the flush forced), build its summary and send it;
on a send error mark the batch's messages kept, otherwise mark them for
removal and drop the batch entry.  The summary built by `Summarize` is
consumed only by the sender, whose outcome is modeled by `sendOk key`. -/
def flushStep (sendOk : RecipientKey → Bool) (force : Bool)
    (softLimit hardLimit now : Int) (st : FlushState)
    (kv : RecipientKey × List BufMsg) : FlushState :=
  if force || needsFlush st.b softLimit hardLimit now kv.1 then
    if sendOk kv.1 then
      { st with
        b := batchesRemove st.b kv.1
        toRemove := kv.2.foldl (fun acc m => insertSet acc m.id) st.toRemove }
    else
      { st with toKeep := kv.2.foldl (fun acc m => insertSet acc m.id) st.toKeep }
  else st

/-- `MessageBuffer.Flush`: fold each message newer than the last flush into
the batch state (one `RecipientKey` per recipient), then walk the batch
entries, summarizing and sending the due ones; finally `Store.Remove` is
called once for each id in `toRemove` (the `toKeep` set is built on send
failure but never consulted).  The result's `toRemove` is exactly the list
of ids passed to `Store.Remove`. -/
def Flush (batchFn : GroupBy) (b : Batches) (stored : List BufMsg)
    (sendOk : RecipientKey → Bool) (force : Bool)
    (softLimit hardLimit now : Int) : FlushState :=
  let b1 := stored.foldl
    (fun acc s => s.recipients.foldl
      (fun acc2 rcpt => batchesAdd acc2 (batchFn s, normalizeAddress rcpt) s) acc) b
  b1.messages.foldl (flushStep sendOk force softLimit hardLimit now)
    { b := b1, toRemove := [], toKeep := [] }

/-! ## SMTP session (`session.go`, evolved variant with `AuthState` and
`SessionSecurity`)

One client connection's state machine.  The embedded `*message` pointer of
a `ReceivedMessage` can be nil (it is nil in the fresh `ReceivedMessage`
that `setData` installs), so it is an `Option`; an operation that would
dereference a nil pointer returns `none`, modeling the Go runtime panic.
The `mail.ReadMessage` parse of a DATA payload and the base64 decoder are
external library calls, passed in as parameters; the `Auth` interface is a
record of its two methods (`ValidCredentials` returning `none` models a Go
error result). -/

inductive AuthState
  | notPermitted
  | required
  | authenticated
  deriving DecidableEq, Repr

inductive SessionSecurity
  | unencrypted
  | tlsPreStarttls
  | tlsPostStarttls
  | ssl
  deriving DecidableEq, Repr

/-- `SessionSecurity.IsEncrypted`. -/
def SessionSecurity.isEncrypted : SessionSecurity → Bool
  | .tlsPostStarttls => true
  | .ssl => true
  | _ => false

/-- `SessionSecurity.AllowStarttls`. -/
def SessionSecurity.allowStarttls : SessionSecurity → Bool
  | .tlsPreStarttls => true
  | _ => false

structure AuthPolicy where
  validCredentials : String → Option Bool
  isPermitted : SessionSecurity → Bool

/-- The `message` struct: envelope sender, recipients, raw data. -/
structure MsgEnvelope where
  From : String
  To : List String
  Data : String
  deriving DecidableEq, Repr

/-- `ReceivedMessage`: the embedded `*message` (possibly nil) and the
parsed `*mail.Message` (its contents are irrelevant to the session rules). -/
structure ReceivedMsg where
  message : Option MsgEnvelope
  parsed : Option Unit
  deriving DecidableEq, Repr

structure Response where
  code : Nat
  text : String
  deriving DecidableEq, Repr

structure Session where
  received : ReceivedMsg
  hostname : String
  auth : Option AuthPolicy
  authState : AuthState
  security : SessionSecurity

/-- `Session.Start(auth, security)`: fresh received message with a non-nil
envelope; `authState` is `REQUIRED` iff an auth policy was supplied. -/
def sessionStart (hostname : String) (auth : Option AuthPolicy)
    (security : SessionSecurity) : Session × Response :=
  ({ received := { message := some { From := "", To := [], Data := "" }, parsed := none }
     hostname := hostname
     auth := auth
     authState := if auth.isSome then .required else .notPermitted
     security := security },
   ⟨220, hostname ++ " Hi there"⟩)

/-- `Session.setFrom`. -/
def setFrom (s : Session) (from_ : String) : Option (Response × Session) :=
  match s.received.message with
  | none => none
  | some m =>
    if 0 < m.From.length || 0 < m.To.length || 0 < m.Data.length then
      some (⟨503, "Command out of sequence"⟩, s)
    else
      some (⟨250, "OK"⟩,
        { s with received := { s.received with message := some { m with From := from_ } } })

/-- `Session.addTo`. -/
def addTo (s : Session) (rcpt : String) : Option (Response × Session) :=
  match s.received.message with
  | none => none
  | some m =>
    if m.From.length = 0 || 0 < m.Data.length then
      some (⟨503, "Command out of sequence"⟩, s)
    else
      some (⟨250, "OK"⟩,
        { s with received := { s.received with message := some { m with To := m.To ++ [rcpt] } } })

/-- `Session.setData`: on acceptance the session's `Received` is replaced
by `&ReceivedMessage{}` — whose embedded `*message` is nil — and the
completed message is emitted.  `parse` models `mail.ReadMessage`. -/
def setData (parse : String → Bool) (s : Session) (data : String) :
    Option (Response × Session × Option ReceivedMsg) :=
  match s.received.message with
  | none => none
  | some m =>
    if m.From.length = 0 || m.To.length = 0 || 0 < m.Data.length then
      some (⟨503, "Command out of sequence"⟩, s, none)
    else if !(parse data) then
      some (⟨451, "Failed to parse data"⟩, s, none)
    else
      some (⟨250, "Got the data"⟩,
        { s with received := { message := none, parsed := none } },
        some { message := some { m with Data := data }, parsed := some () })

/-- A parsed SMTP command node: the command token and the children the
grammar may attach (`path`, auth `type`, auth `payload`).  A missing child
is `none`; reading a missing child's `.Text` is a nil dereference. -/
structure CmdNode where
  text : String
  path : Option String
  authType : Option String
  payload : Option String
  deriving DecidableEq, Repr

/-- The commands `Session.authRequired` exempts from authentication. -/
def bypassAuth : List String :=
  ["quit", "helo", "ehlo", "rset", "noop", "auth", "starttls"]

/-- `Session.authRequired(command)`. -/
def authRequired (s : Session) (cmdText : String) : Bool :=
  if bypassAuth.contains (strToLower cmdText) then false
  else s.authState == .required

/-- `Session.checkCredentials(payload)`: base64-decode, validate, and on
success transition to `AUTHENTICATED`.  `dec` models
`base64.StdEncoding.DecodeString` (`none` = decode error). -/
def checkCredentials (dec : String → Option String) (s : Session) (payload : String) :
    Option (Response × Session) :=
  match dec payload with
  | none => some (⟨501, "Error decoding credentials"⟩, s)
  | some data =>
    match s.auth with
    | none => none
    | some a =>
      match a.validCredentials data with
      | none => some (⟨501, "Error validating credentials"⟩, s)
      | some false => some (⟨535, "Authentication failed"⟩, s)
      | some true =>
        some (⟨235, "Authentication successful"⟩, { s with authState := .authenticated })

/-- `Session.authenticate(method, payload)`. -/
def authenticate (dec : String → Option String) (s : Session)
    (method payload : String) : Option (Response × Session) :=
  if method ≠ "PLAIN" then some (⟨504, "Unrecognized authentication type"⟩, s)
  else if payload = "" then some (⟨334, ""⟩, s)
  else checkCredentials dec s payload

/-- The body of `Session.Advance`'s `auth` case after the state checks. -/
def advanceAuthBody (dec : String → Option String) (s : Session) (node : CmdNode) :
    Option (Response × Session) :=
  match node.authType with
  | none => none
  | some ty =>
    match node.payload with
    | some p => authenticate dec s ty p
    | none => authenticate dec s ty ""

/-- `Session.Advance(node)`: the 530 gate, then the command dispatch on the
lowercased command token. -/
def advance (dec : String → Option String) (s : Session) (node : CmdNode) :
    Option (Response × Session) :=
  if authRequired s node.text then some (⟨530, "Authentication required"⟩, s)
  else
    match strToLower node.text with
    | "quit" => some (⟨221, s.hostname ++ " See ya"⟩, s)
    | "helo" => some (⟨250, "Hello"⟩, s)
    | "ehlo" =>
      some (⟨250, if s.security.allowStarttls
                  then "Hello\r\nAUTH PLAIN\r\nSTARTTLS"
                  else "Hello\r\nAUTH PLAIN"⟩, s)
    | "noop" => some (⟨250, "Noop"⟩, s)
    | "rcpt" =>
      match node.path with
      | none => none
      | some p => addTo s p
    | "mail" =>
      match node.path with
      | none => none
      | some p => setFrom s p
    | "vrfy" => some (⟨252, "Maybe"⟩, s)
    | "data" => some (⟨354, "Go"⟩, s)
    | "auth" =>
      if s.authState == .required then
        match s.auth with
        | none => none
        | some a =>
          if !(a.isPermitted s.security) then
            some (⟨502, "An encrypted connection is required for authentication"⟩, s)
          else advanceAuthBody dec s node
      else if s.authState == .authenticated then
        some (⟨503, "Already authenticated"⟩, s)
      else some (⟨502, "Authentication is not supported"⟩, s)
    | "starttls" =>
      if s.security == .tlsPostStarttls then some (⟨500, "Already using TLS"⟩, s)
      else if !s.security.allowStarttls then some (⟨500, "STARTTLS not supported"⟩, s)
      else some (⟨220, "Ready to switch to TLS"⟩, s)
    | _ => some (⟨502, "Not implemented"⟩, s)

/-! ## Address rewriter (`addresses.go`: `AddressRewriter`)

A Go `*regexp.Regexp` is modeled by the two observations the rewriter
makes of it: `MatchString`, and `FindAllStringSubmatchIndex` (per match, a
list of optional capture-group ranges, index 0 being the whole match; `none`
is a group that did not participate, Go's `-1`).  `ExpandString`'s template
language is implemented below.  Strings are indexed by character; the
addresses in question are ASCII, where Go's byte indexing coincides. -/

structure GoRegexp where
  matchString : String → Bool
  findAllSubmatchIndex : String → List (List (Option (Nat × Nat)))

/-- The slice `src[a:b]`. -/
def strSlice (src : String) (a b : Nat) : String :=
  ((src.toList.drop a).take (b - a)).asString

/-- The text of capture group `num` of a match (empty when the group is
absent or did not participate), as Go `expand` reads it from the match's
index pairs. -/
def groupText (src : String) (m : List (Option (Nat × Nat))) (num : Nat) : String :=
  match m.getD num none with
  | some (a, b) => strSlice src a b
  | none => ""

def isWordChar (c : Char) : Bool := c.isAlphanum || c == '_'

def digitsToNat (cs : List Char) : Nat :=
  cs.foldl (fun n c => n * 10 + (c.toNat - 48)) 0

/-- The value a template reference `$name` expands to: a numeric name is a
capture-group index; a non-numeric name refers to a named group, which the
patterns modeled here do not define, so it expands to nothing. -/
def refText (src : String) (m : List (Option (Nat × Nat))) (name : List Char) : String :=
  if name.all Char.isDigit then groupText src m (digitsToNat name) else ""

/-- Go `regexp`'s `expand` template scanner: copy literal text; `$$` is a
literal `$`; `$name` and `${name}` splice in the referenced group's text; a
`$` that starts no valid reference is copied literally.  Every step
consumes at least one template character, so fuel `template.length + 1`
(supplied by `goExpandString`) never runs out. -/
def goExpandAux (src : String) (m : List (Option (Nat × Nat))) :
    Nat → List Char → String → String
  | _, [], acc => acc
  | 0, _, acc => acc
  | fuel + 1, '$' :: '$' :: r2, acc => goExpandAux src m fuel r2 (acc.push '$')
  | fuel + 1, '$' :: '{' :: r2, acc =>
    let name := r2.takeWhile (fun c => !(c == '}'))
    match r2.dropWhile (fun c => !(c == '}')) with
    | '}' :: r3 => goExpandAux src m fuel r3 (acc ++ refText src m name)
    | _ => goExpandAux src m fuel ('{' :: r2) (acc.push '$')
  | fuel + 1, '$' :: rest, acc =>
    let name := rest.takeWhile isWordChar
    if name.isEmpty then goExpandAux src m fuel rest (acc.push '$')
    else goExpandAux src m fuel (rest.drop name.length) (acc ++ refText src m name)
  | fuel + 1, c :: rest, acc => goExpandAux src m fuel rest (acc.push c)

/-- `Regexp.ExpandString(res, template, src, match)`: append the template's
expansion for one match to `res`. -/
def goExpandString (res : String) (template : String) (src : String)
    (m : List (Option (Nat × Nat))) : String :=
  goExpandAux src m (template.length + 1) template.toList res

structure AddressRewriter where
  source : Option GoRegexp
  dest : String

/-- `AddressRewriter.Rewrite(address)`: an address is returned unchanged
when no source regex is set or it does not match; otherwise the
destination template is expanded for every match, accumulating from the
empty byte slice. -/
def Rewrite (r : AddressRewriter) (address : String) : String :=
  match r.source with
  | none => address
  | some re =>
    if !(re.matchString address) then address
    else (re.findAllSubmatchIndex address).foldl
      (fun res m => goExpandString res r.dest address m) ""

/-- `AddressRewriter.RewriteAll(addresses)`: collect each address's rewrite
into a set (a Go `map[string]bool`, modeled as a duplicate-free list), then
`sort.Strings` the collected keys. -/
def RewriteAll (r : AddressRewriter) (addresses : List String) : List String :=
  let rewritten := addresses.foldl
    (fun acc addr =>
      let x := Rewrite r addr
      if acc.contains x then acc else acc ++ [x]) []
  rewritten.insertionSort (fun a b => a ≤ b)

/-! ## Concrete instances used by the counterexamples and witnesses -/

/-- Three messages added to a fresh memory store at receive times 10, 20
and 30, in that order: the heap's backing array becomes `[30, 10, 20]`. -/
def c1Store : MemoryStore := memAdd (memAdd (memAdd newMemoryStore 10) 20) 30

/-- One stored message addressed to two recipients, hence folded into two
`RecipientKey` buckets. -/
def c2Msg : BufMsg :=
  { id := 0, recipients := ["a@x", "b@x"], received := 0, date := none
    body := "", subject := "" }

/-- A forced flush where the summary for recipient `a@x` fails to send and
the summary for `b@x` succeeds. -/
def c2Flush : FlushState :=
  Flush (fun _ => "") emptyBatches [c2Msg] (fun k => k.2 == "b@x") true 100 100 0

/-- A batch that received a message with receive time 30 and then one with
receive time 10 (out of receive-time order, as the memory store's
`MessagesNewerThan` can deliver them). -/
def c5Batch : Batches :=
  batchesAdd
    (batchesAdd emptyBatches ("k", "r")
      { id := 0, recipients := [], received := 30, date := none, body := "", subject := "" })
    ("k", "r")
    { id := 1, recipients := [], received := 10, date := none, body := "", subject := "" }

/-- A DATA parse that accepts (`mail.ReadMessage` succeeding). -/
def parseAlways : String → Bool := fun _ => true

/-- A base64 decoder rejecting everything (enough for commands that never
reach the decoder). -/
def decNone : String → Option String := fun _ => none

/-- A base64 decoder for the witnesses: `"bad"` fails to decode, any other
payload decodes to itself. -/
def decId : String → Option String := fun p => if p == "bad" then none else some p

def mailNode (p : String) : CmdNode := ⟨"MAIL", some p, none, none⟩

def rcptNode (p : String) : CmdNode := ⟨"RCPT", some p, none, none⟩

def dataNode : CmdNode := ⟨"DATA", none, none, none⟩

def quitNode : CmdNode := ⟨"QUIT", none, none, none⟩

def vrfyNode : CmdNode := ⟨"VRFY", none, none, none⟩

def authNode (ty : String) (pl : Option String) : CmdNode := ⟨"AUTH", none, some ty, pl⟩

def c4Data : String := "Subject: t\r\n\r\nhi\r\n"

/-- A session (no auth configured) holding a complete envelope, about to
accept a DATA payload. -/
def c4Pre : Session :=
  { received := { message := some { From := "<a@x>", To := ["<b@y>"], Data := "" }
                  parsed := none }
    hostname := "h", auth := none, authState := .notPermitted, security := .unencrypted }

/-- The session state after `c4Pre` accepted a DATA payload with 250: its
`Received` is the fresh `&ReceivedMessage{}` whose embedded `*message` is
nil. -/
def c4AfterData : Session :=
  match setData parseAlways c4Pre c4Data with
  | some (_, s, _) => s
  | none => c4Pre

/-- An auth policy for the witnesses: permits any security level;
validating `"err"` errors, `"ok"` succeeds, anything else is rejected. -/
def testAuthPolicy : AuthPolicy :=
  { validCredentials := fun t => if t == "err" then none else some (t == "ok")
    isPermitted := fun _ => true }

/-- An auth policy requiring an encrypted connection. -/
def encOnlyAuthPolicy : AuthPolicy :=
  { validCredentials := fun _ => some true
    isPermitted := fun sec => sec.isEncrypted }

def freshRecv : ReceivedMsg := { message := some { From := "", To := [], Data := "" }, parsed := none }

/-- An unauthenticated session that must authenticate. -/
def reqSession : Session :=
  { received := freshRecv, hostname := "h", auth := some testAuthPolicy
    authState := .required, security := .unencrypted }

/-- An already-authenticated session. -/
def authedSession : Session := { reqSession with authState := .authenticated }

/-- An unauthenticated session whose auth policy requires encryption. -/
def encReqSession : Session := { reqSession with auth := some encOnlyAuthPolicy }

/-- The model of Go `regexp.MustCompile(".*")`: it matches every string;
on a string `s` it produces a whole-string match and a trailing empty
match, each with no capture groups. -/
def dotStarRegexp : GoRegexp :=
  { matchString := fun _ => true
    findAllSubmatchIndex := fun s => [[some (0, s.length)], [some (s.length, s.length)]] }

/-- A rewriter whose source is set but whose destination template is unset
(the empty string). -/
def emptyDestRewriter : AddressRewriter := { source := some dotStarRegexp, dest := "" }

/-! ## Theorems -/

/-- C1: the claim that `messages_newer_than(t)` returns exactly the stored
messages with receive time strictly greater than `t` fails on the memory
store.  After adding messages at times 10, 20 and 30 (in that order), the
heap's backing array is `[30, 10, 20]`; `sort.Search`'s predicate is not
monotone over it and stops at index 1, so `MessagesNewerThan(15)` returns
only the time-30 message even though the time-20 message is stored and
strictly newer than 15. -/
theorem memoryStore_newerThan_misses_stored_message :
    (memMessagesNewerThan c1Store 15).map StoredMsg.received = [30] ∧
    ∃ m ∈ c1Store.messages,
      15 < m.received ∧ m ∉ memMessagesNewerThan c1Store 15 := by
  decide

/-- C2: when the summary for one `RecipientKey` bucket fails to send while
another bucket sharing a stored message succeeds, `Flush` still calls
`Store.Remove` on that message: `toKeep` records it (`0 ∈ toKeep`) but is
never consulted before the removal loop, so the removals are `[0]`.  The
failed bucket's batch entry is retained, and each id is removed at most
once. -/
theorem flush_removes_message_of_failed_summary :
    c2Flush.toRemove = [0] ∧
    0 ∈ c2Flush.toKeep ∧
    containsKey c2Flush.b.messages ("", "a@x") = true ∧
    c2Flush.toRemove.Nodup := by
  decide

/-- C3: after a successful `add(m)` on the disk store, a crash and reopen
over the same directory still shows `m` in `messages_newer_than(t)` for
every `t ≤ m`'s receive time: the metadata file (whose mtime is the
receive time) and the content file both persist, and the listing keeps
every metadata entry whose mtime is not before `t`. -/
theorem diskStore_add_persists_across_reopen (fs : DiskFS) (now t : Int)
    (h : t ≤ now) :
    ∃ sm ∈ diskMessagesNewerThan (diskReopen (diskAdd fs now).1) t,
      sm.id = (diskAdd fs now).2 ∧ sm.received = now := by
  refine ⟨⟨(diskAdd fs now).2, now⟩, ?_, rfl, rfl⟩
  unfold diskMessagesNewerThan diskReopen diskAdd
  apply List.mem_filterMap.mpr
  refine ⟨(toString (fs.counter + 1) ++ ":2,S", now), by simp, ?_⟩
  rw [if_neg (by omega)]
  rw [if_pos (by simp)]

/-- Witness for C3 at a concrete store: an empty directory, a message
added at time 5, queried after reopen with `t = 3`. -/
theorem diskStore_add_persists_across_reopen_witness :
    ∃ sm ∈ diskMessagesNewerThan (diskReopen (diskAdd ⟨[], [], 0⟩ 5).1) 3,
      sm.id = (diskAdd ⟨[], [], 0⟩ 5).2 ∧ sm.received = 5 :=
  diskStore_add_persists_across_reopen ⟨[], [], 0⟩ 5 3 (by decide)

/-- C5 counterexample: the claim reads the flush predicate over the
batch's earliest and latest receive times, but `NeedsFlush` uses the
recorded `first`/`last` fields, which are the receive time of the first
*added* and most recently *added* message.  For a batch that received a
time-30 message and then a time-10 message, at `now = 40` with hard-limit
25 and soft-limit 100 the claim's predicate fires (40 − 10 ≥ 25) while
`NeedsFlush` does not, so the batch is not emitted. -/
theorem needsFlush_ignores_earliest_receive_time :
    (false || needsFlush c5Batch 100 25 40 ("k", "r")) = false ∧
    specDue (lookupD c5Batch.messages ("k", "r") []) 100 25 40 false = true := by
  decide

/-- C5 amended: a batch is emitted by a flush at time `now` if and only if
the flush is forced, or `now` minus the batch's *recorded* first receive
time (the receive time of the message that created the batch entry) is at
least the hard limit, or `now` minus the recorded last receive time (the
receive time of the most recently added message) is at least the soft
limit.  These recorded times coincide with the earliest/latest receive
times only when messages are added in nondecreasing receive-time order. -/
theorem flush_due_iff_recorded_first_last (b : Batches)
    (softLimit hardLimit now : Int) (key : RecipientKey) (force : Bool) :
    (force || needsFlush b softLimit hardLimit now key) = true ↔
      (force = true ∨ hardLimit ≤ now - lookupD b.first key 0 ∨
        softLimit ≤ now - lookupD b.last key 0) := by
  cases force
  · simp only [Bool.false_or, needsFlush, Bool.not_eq_true']
    constructor
    · intro hb
      rcases Bool.and_eq_false_iff.mp hb with h1 | h1 <;>
        simp only [decide_eq_false_iff_not, not_lt] at h1 <;> omega
    · intro hb
      apply Bool.and_eq_false_iff.mpr
      rcases hb with h1 | h1 | h1
      · exact absurd h1 Bool.false_ne_true
      · exact Or.inl (by simp only [decide_eq_false_iff_not, not_lt]; omega)
      · exact Or.inr (by simp only [decide_eq_false_iff_not, not_lt]; omega)
  · simp

/-- C4 counterexample: in the after-data state (here: `c4Pre`'s DATA
payload was accepted with 250), a subsequent MAIL does not yield 503 — the
accepting `setData` replaced `Received` with a `ReceivedMessage` whose
embedded `*message` is nil, so `setFrom` dereferences a nil pointer
(result `none`); and a subsequent DATA command is answered 354, not 503. -/
theorem session_after_data_mail_not_503 :
    ((setData parseAlways c4Pre c4Data).map (fun r => r.1.code) = some 250) ∧
    advance decNone c4AfterData (mailNode "<t@e>") = none ∧
    ((advance decNone c4AfterData dataNode).map (fun r => r.1.code) = some 354) := by
  exact ⟨rfl, rfl, rfl⟩

/-- Evaluation of the lowercased command tokens used by the session
theorems. -/
theorem strToLower_eval :
    strToLower "MAIL" = "mail" ∧ strToLower "RCPT" = "rcpt" ∧
    strToLower "DATA" = "data" ∧ strToLower "QUIT" = "quit" ∧
    strToLower "VRFY" = "vrfy" ∧ strToLower "AUTH" = "auth" :=
  ⟨rfl, rfl, rfl, rfl, rfl, rfl⟩

/-- C4 amended: a session in the after-data state (an accepted DATA leaves
`Received.message` nil; such a session cannot be in the `REQUIRED` auth
state, since DATA itself is gated on authentication) answers QUIT with 221
and the DATA command with 354 (not 503), while MAIL and RCPT crash on the
nil `message` record instead of returning 503 — as does reading another
DATA payload. -/
theorem session_after_data_behavior (dec : String → Option String)
    (parse : String → Bool) (s : Session)
    (hmsg : s.received.message = none) (hauth : s.authState ≠ .required) :
    (∀ p, advance dec s (mailNode p) = none) ∧
    (∀ p, advance dec s (rcptNode p) = none) ∧
    advance dec s dataNode = some (⟨354, "Go"⟩, s) ∧
    advance dec s quitNode = some (⟨221, s.hostname ++ " See ya"⟩, s) ∧
    (∀ d, setData parse s d = none) := by
  have hb : (s.authState == AuthState.required) = false := by
    simpa using hauth
  refine ⟨?_, ?_, ?_, ?_, ?_⟩
  · intro p
    simp [advance, authRequired, bypassAuth, mailNode, strToLower_eval.1, hb,
      setFrom, hmsg]
  · intro p
    simp [advance, authRequired, bypassAuth, rcptNode, strToLower_eval.2.1, hb,
      addTo, hmsg]
  · simp [advance, authRequired, bypassAuth, dataNode, strToLower_eval.2.2.1, hb]
  · simp [advance, authRequired, bypassAuth, quitNode, strToLower_eval.2.2.2.1, hb]
  · intro d
    simp [setData, hmsg]

/-- Witness for C4's amended theorem at the concrete after-data session
`c4AfterData`: QUIT answers 221, DATA answers 354, and RCPT crashes. -/
theorem session_after_data_behavior_witness :
    advance decNone c4AfterData quitNode = some (⟨221, "h See ya"⟩, c4AfterData) ∧
    advance decNone c4AfterData dataNode = some (⟨354, "Go"⟩, c4AfterData) ∧
    advance decNone c4AfterData (rcptNode "<u@v>") = none :=
  let h := session_after_data_behavior decNone parseAlways c4AfterData rfl (by decide)
  ⟨h.2.2.2.1, h.2.2.1, h.2.1 "<u@v>"⟩

/-- C6: the AUTH command's response codes.  When auth is required but the
policy does not permit it at the session's security level, AUTH answers
502; once authenticated, any AUTH answers 503; otherwise (auth required
and permitted) a one-step `AUTH PLAIN <payload>` answers 501 on a base64
decode failure, 501 on a validator error, 535 on rejected credentials, and
235 on success, which transitions the session to `AUTHENTICATED`. -/
theorem session_auth_response_codes (dec : String → Option String) :
    (∀ (s : Session) (a : AuthPolicy) (ty : String) (pl : Option String),
      s.authState = .required → s.auth = some a → a.isPermitted s.security = false →
      advance dec s (authNode ty pl) =
        some (⟨502, "An encrypted connection is required for authentication"⟩, s)) ∧
    (∀ (s : Session) (ty : String) (pl : Option String),
      s.authState = .authenticated →
      advance dec s (authNode ty pl) = some (⟨503, "Already authenticated"⟩, s)) ∧
    (∀ (s : Session) (a : AuthPolicy) (p : String),
      s.authState = .required → s.auth = some a → a.isPermitted s.security = true →
      p ≠ "" → dec p = none →
      advance dec s (authNode "PLAIN" (some p)) =
        some (⟨501, "Error decoding credentials"⟩, s)) ∧
    (∀ (s : Session) (a : AuthPolicy) (p d : String),
      s.authState = .required → s.auth = some a → a.isPermitted s.security = true →
      p ≠ "" → dec p = some d → a.validCredentials d = none →
      advance dec s (authNode "PLAIN" (some p)) =
        some (⟨501, "Error validating credentials"⟩, s)) ∧
    (∀ (s : Session) (a : AuthPolicy) (p d : String),
      s.authState = .required → s.auth = some a → a.isPermitted s.security = true →
      p ≠ "" → dec p = some d → a.validCredentials d = some false →
      advance dec s (authNode "PLAIN" (some p)) =
        some (⟨535, "Authentication failed"⟩, s)) ∧
    (∀ (s : Session) (a : AuthPolicy) (p d : String),
      s.authState = .required → s.auth = some a → a.isPermitted s.security = true →
      p ≠ "" → dec p = some d → a.validCredentials d = some true →
      advance dec s (authNode "PLAIN" (some p)) =
        some (⟨235, "Authentication successful"⟩, { s with authState := .authenticated })) := by
  refine ⟨?_, ?_, ?_, ?_, ?_, ?_⟩
  · intro s a ty pl h1 h2 h3
    simp [advance, authRequired, bypassAuth, authNode, strToLower_eval.2.2.2.2.2,
      h1, h2, h3]
  · intro s ty pl h1
    simp [advance, authRequired, bypassAuth, authNode, strToLower_eval.2.2.2.2.2, h1]
  · intro s a p h1 h2 h3 h4 h5
    simp [advance, authRequired, bypassAuth, authNode, strToLower_eval.2.2.2.2.2,
      h1, h2, h3, advanceAuthBody, authenticate, checkCredentials, h4, h5]
  · intro s a p d h1 h2 h3 h4 h5 h6
    simp [advance, authRequired, bypassAuth, authNode, strToLower_eval.2.2.2.2.2,
      h1, h2, h3, advanceAuthBody, authenticate, checkCredentials, h4, h5, h6]
  · intro s a p d h1 h2 h3 h4 h5 h6
    simp [advance, authRequired, bypassAuth, authNode, strToLower_eval.2.2.2.2.2,
      h1, h2, h3, advanceAuthBody, authenticate, checkCredentials, h4, h5, h6]
  · intro s a p d h1 h2 h3 h4 h5 h6
    simp [advance, authRequired, bypassAuth, authNode, strToLower_eval.2.2.2.2.2,
      h1, h2, h3, advanceAuthBody, authenticate, checkCredentials, h4, h5, h6]

/-- Witness for C6 at concrete sessions: encryption-gated policy on an
unencrypted session → 502; already authenticated → 503; payload `"bad"`
(decode failure) → 501; payload `"err"` (validator error) → 501; payload
`"no"` (rejection) → 535; payload `"ok"` → 235 and the session becomes
authenticated. -/
theorem session_auth_response_codes_witness :
    advance decId encReqSession (authNode "PLAIN" (some "x")) =
      some (⟨502, "An encrypted connection is required for authentication"⟩, encReqSession) ∧
    advance decId authedSession (authNode "PLAIN" (some "x")) =
      some (⟨503, "Already authenticated"⟩, authedSession) ∧
    advance decId reqSession (authNode "PLAIN" (some "bad")) =
      some (⟨501, "Error decoding credentials"⟩, reqSession) ∧
    advance decId reqSession (authNode "PLAIN" (some "err")) =
      some (⟨501, "Error validating credentials"⟩, reqSession) ∧
    advance decId reqSession (authNode "PLAIN" (some "no")) =
      some (⟨535, "Authentication failed"⟩, reqSession) ∧
    advance decId reqSession (authNode "PLAIN" (some "ok")) =
      some (⟨235, "Authentication successful"⟩, { reqSession with authState := .authenticated }) :=
  ⟨(session_auth_response_codes decId).1 encReqSession encOnlyAuthPolicy "PLAIN" (some "x")
      rfl rfl rfl,
   (session_auth_response_codes decId).2.1 authedSession "PLAIN" (some "x") rfl,
   (session_auth_response_codes decId).2.2.1 reqSession testAuthPolicy "bad"
      rfl rfl rfl (by decide) rfl,
   (session_auth_response_codes decId).2.2.2.1 reqSession testAuthPolicy "err" "err"
      rfl rfl rfl (by decide) rfl rfl,
   (session_auth_response_codes decId).2.2.2.2.1 reqSession testAuthPolicy "no" "no"
      rfl rfl rfl (by decide) rfl rfl,
   (session_auth_response_codes decId).2.2.2.2.2 reqSession testAuthPolicy "ok" "ok"
      rfl rfl rfl (by decide) rfl rfl⟩

/-- C9: a failing AUTH attempt — decode failure, validator error, or
rejected credentials — returns its error response with the session state
untouched: the same `Session` record, so the auth state and the envelope
(from, to, data) are unchanged and a later correct AUTH can still
succeed. -/
theorem failed_auth_preserves_session (dec : String → Option String)
    (s : Session) (a : AuthPolicy) (p : String) (hauth : s.auth = some a) :
    (dec p = none →
      checkCredentials dec s p = some (⟨501, "Error decoding credentials"⟩, s)) ∧
    (∀ d, dec p = some d → a.validCredentials d = none →
      checkCredentials dec s p = some (⟨501, "Error validating credentials"⟩, s)) ∧
    (∀ d, dec p = some d → a.validCredentials d = some false →
      checkCredentials dec s p = some (⟨535, "Authentication failed"⟩, s)) := by
  refine ⟨?_, ?_, ?_⟩
  · intro h1
    simp [checkCredentials, h1]
  · intro d h1 h2
    simp [checkCredentials, hauth, h1, h2]
  · intro d h1 h2
    simp [checkCredentials, hauth, h1, h2]

/-- Witness for C9 at the concrete session `reqSession`: all three failure
modes leave the session exactly as it was. -/
theorem failed_auth_preserves_session_witness :
    checkCredentials decId reqSession "bad" =
      some (⟨501, "Error decoding credentials"⟩, reqSession) ∧
    checkCredentials decId reqSession "err" =
      some (⟨501, "Error validating credentials"⟩, reqSession) ∧
    checkCredentials decId reqSession "no" =
      some (⟨535, "Authentication failed"⟩, reqSession) :=
  let h := failed_auth_preserves_session decId reqSession testAuthPolicy
  ⟨(h "bad" rfl).1 rfl, (h "err" rfl).2.1 "err" rfl rfl, (h "no" rfl).2.2 "no" rfl rfl⟩

/-- No result of `checkCredentials` carries code 530. -/
theorem checkCredentials_ne_530 (dec : String → Option String) (s : Session)
    (p : String) :
    ∀ r s2, checkCredentials dec s p = some (r, s2) → r.code ≠ 530 := by
  intro r s2 h
  rcases hd : dec p with _ | data
  · simp only [checkCredentials, hd, Option.some.injEq, Prod.mk.injEq] at h
    rcases h with ⟨rfl, rfl⟩
    decide
  · rcases ha : s.auth with _ | a
    · simp [checkCredentials, hd, ha] at h
    · rcases hv : a.validCredentials data with _ | b
      · simp only [checkCredentials, hd, ha, hv, Option.some.injEq, Prod.mk.injEq] at h
        rcases h with ⟨rfl, rfl⟩
        decide
      · cases b <;>
          simp only [checkCredentials, hd, ha, hv, Option.some.injEq, Prod.mk.injEq] at h <;>
          rcases h with ⟨rfl, rfl⟩ <;> decide

/-- No result of `authenticate` carries code 530. -/
theorem authenticate_ne_530 (dec : String → Option String) (s : Session)
    (method payload : String) :
    ∀ r s2, authenticate dec s method payload = some (r, s2) → r.code ≠ 530 := by
  intro r s2 h
  by_cases hm : method = "PLAIN"
  · by_cases hp : payload = ""
    · simp only [authenticate, hm, hp, if_pos, if_neg, ne_eq, not_true_eq_false,
        if_false, if_true, Option.some.injEq, Prod.mk.injEq, reduceIte] at h
      rcases h with ⟨rfl, rfl⟩
      decide
    · simp only [authenticate, hm, hp, ne_eq, not_true_eq_false, if_false,
        reduceIte] at h
      exact checkCredentials_ne_530 dec s payload r s2 h
  · simp only [authenticate, hm, ne_eq, not_false_eq_true, if_true, reduceIte,
      Option.some.injEq, Prod.mk.injEq] at h
    rcases h with ⟨rfl, rfl⟩
    decide

/-- No result of the AUTH dispatch body carries code 530. -/
theorem advanceAuthBody_ne_530 (dec : String → Option String) (s : Session)
    (node : CmdNode) :
    ∀ r s2, advanceAuthBody dec s node = some (r, s2) → r.code ≠ 530 := by
  intro r s2 h
  rcases hty : node.authType with _ | ty
  · simp [advanceAuthBody, hty] at h
  · rcases hpl : node.payload with _ | p
    · simp only [advanceAuthBody, hty, hpl] at h
      exact authenticate_ne_530 dec s ty "" r s2 h
    · simp only [advanceAuthBody, hty, hpl] at h
      exact authenticate_ne_530 dec s ty p r s2 h

/-- C7: in a session that must authenticate and has not, `Advance` answers
530 exactly for the commands outside the bypass list (QUIT, HELO, EHLO,
RSET, NOOP, AUTH, STARTTLS): any other command is answered 530, and no
bypass command is ever answered 530. -/
theorem advance_530_iff_not_bypass (dec : String → Option String) (s : Session)
    (a : AuthPolicy) (node : CmdNode)
    (hreq : s.authState = .required) (hauth : s.auth = some a) :
    (bypassAuth.contains (strToLower node.text) = false →
      advance dec s node = some (⟨530, "Authentication required"⟩, s)) ∧
    (bypassAuth.contains (strToLower node.text) = true →
      ∀ r s2, advance dec s node = some (r, s2) → r.code ≠ 530) := by
  constructor
  · intro hc
    have har : authRequired s node.text = true := by
      unfold authRequired
      rw [hc, hreq]
      simp
    simp [advance, har]
  · intro hc r s2 h
    have hmem : strToLower node.text ∈ bypassAuth := by
      have hc2 : bypassAuth.elem (strToLower node.text) = true := hc
      exact List.mem_of_elem_eq_true hc2
    have har : authRequired s node.text = false := by
      unfold authRequired
      rw [hc]
      simp
    rw [advance, har] at h
    simp only [Bool.false_eq_true, if_false] at h
    simp only [bypassAuth, List.mem_cons, List.not_mem_nil, or_false] at hmem
    rcases hmem with heq | heq | heq | heq | heq | heq | heq <;> rw [heq] at h
    · -- quit
      simp at h
      rcases h with ⟨rfl, rfl⟩
      simp
    · -- helo
      simp at h
      rcases h with ⟨rfl, rfl⟩
      simp
    · -- ehlo
      simp at h
      rcases h with ⟨rfl, rfl⟩
      simp
    · -- rset: falls through to the default 502 branch
      simp at h
      rcases h with ⟨rfl, rfl⟩
      simp
    · -- noop
      simp at h
      rcases h with ⟨rfl, rfl⟩
      simp
    · -- auth
      rw [hauth] at h
      by_cases hp : a.isPermitted s.security = true
      · simp only [hreq, hp] at h
        simp at h
        exact advanceAuthBody_ne_530 dec s node r s2 h
      · rw [Bool.not_eq_true] at hp
        simp only [hreq, hp] at h
        simp at h
        rcases h with ⟨rfl, rfl⟩
        simp
    · -- starttls
      rcases hsec : s.security <;> rw [hsec] at h <;> simp at h <;>
        rcases h with ⟨rfl, rfl⟩ <;> simp

/-- Witness for C7 at the concrete session `reqSession`: VRFY (not in the
bypass list) is answered 530; QUIT (in the bypass list) is answered 221,
and in particular not 530. -/
theorem advance_530_iff_not_bypass_witness :
    advance decId reqSession vrfyNode = some (⟨530, "Authentication required"⟩, reqSession) ∧
    advance decId reqSession quitNode = some (⟨221, "h See ya"⟩, reqSession) ∧
    (221 : Nat) ≠ 530 :=
  ⟨(advance_530_iff_not_bypass decId reqSession testAuthPolicy vrfyNode rfl rfl).1
      (by decide),
   rfl,
   (advance_530_iff_not_bypass decId reqSession testAuthPolicy quitNode rfl rfl).2
      (by decide) ⟨221, "h See ya"⟩ reqSession rfl⟩

/-- Membership after `addNew`. -/
theorem addNew_mem (acc : List String) (x y : String) :
    y ∈ addNew acc x ↔ y ∈ acc ∨ y = x := by
  unfold addNew
  split
  · rename_i hx
    constructor
    · exact Or.inl
    · rintro (h | rfl)
      · exact h
      · exact hx
  · simp [List.mem_append]

/-- Membership in the `addNew` fold. -/
theorem foldl_addNew_mem (l acc : List String) (y : String) :
    y ∈ l.foldl addNew acc ↔ y ∈ acc ∨ y ∈ l := by
  induction l generalizing acc with
  | nil => simp
  | cons x xs ih =>
    simp only [List.foldl_cons, ih, addNew_mem, List.mem_cons]
    tauto

/-- The `addNew` fold preserves duplicate-freedom. -/
theorem foldl_addNew_nodup (l : List String) (acc : List String)
    (h : acc.Nodup) : (l.foldl addNew acc).Nodup := by
  induction l generalizing acc with
  | nil => simpa
  | cons x xs ih =>
    rw [List.foldl_cons]
    apply ih
    unfold addNew
    split
    · exact h
    · rename_i hx
      rw [← List.concat_eq_append]
      exact h.concat hx

/-- `updateUnique` never changes the group template. -/
theorem updateUnique_template (m : BufMsg) (u : UniqueMessage) :
    (updateUnique m u).template = u.template := by
  unfold updateUnique
  rcases m.date <;> simp

/-- `updateByTemplate` never changes the listed templates when the update
preserves them. -/
theorem updateByTemplate_templates (l : List UniqueMessage) (key : String)
    (f : UniqueMessage → UniqueMessage) (hf : ∀ u, (f u).template = u.template) :
    (updateByTemplate l key f).map (fun u => u.template) =
      l.map (fun u => u.template) := by
  induction l with
  | nil => rfl
  | cons u us ih =>
    unfold updateByTemplate
    split
    · simp [hf]
    · simp [ih]

/-- The key-presence test of `Compact`'s loop in terms of the listed
templates. -/
theorem any_template_eq_contains (l : List UniqueMessage) (key : String) :
    (l.any fun u => u.template == key) = true ↔
      key ∈ l.map (fun u => u.template) := by
  simp [List.any_eq_true]

/-- One `Compact` iteration appends the message's key exactly when it is
new. -/
theorem compactStep_templates (g : GroupBy) (res : List UniqueMessage) (m : BufMsg) :
    (compactStep g res m).map (fun u => u.template) =
      addNew (res.map fun u => u.template) (g m) := by
  unfold compactStep
  by_cases hc : (res.any fun u => u.template == g m) = true
  · simp only [hc, reduceIte]
    rw [updateByTemplate_templates res (g m) _ (updateUnique_template m)]
    unfold addNew
    rw [if_pos ((any_template_eq_contains res (g m)).mp hc)]
  · simp only [hc, reduceIte]
    rw [updateByTemplate_templates _ (g m) _ (updateUnique_template m)]
    unfold addNew
    rw [if_neg (fun hmem => hc ((any_template_eq_contains res (g m)).mpr hmem))]
    simp [freshUnique]

/-- The fold underlying `Compact`, transported to the template lists. -/
theorem compact_foldl_templates (g : GroupBy) (ms : List BufMsg)
    (res : List UniqueMessage) :
    ((ms.foldl (compactStep g) res).map fun u => u.template) =
      (ms.map g).foldl addNew (res.map fun u => u.template) := by
  induction ms generalizing res with
  | nil => rfl
  | cons m ms ih =>
    simp only [List.foldl_cons, List.map_cons, ih, compactStep_templates]

/-- C10: `Compact` yields one `UniqueMessage` per distinct group key, in
the order in which each key first occurs in the input — the template list
is exactly the input key sequence with later duplicates dropped, it is
duplicate-free, and it covers exactly the keys of the input.  `Compact` is
a function of the input sequence, so the unique-group list is
deterministic. -/
theorem compact_one_unique_per_key_in_first_occurrence_order (g : GroupBy)
    (stored : List BufMsg) :
    ((Compact g stored).map fun u => u.template) = firstOccurrences (stored.map g) ∧
    ((Compact g stored).map fun u => u.template).Nodup ∧
    (∀ k, (k ∈ (Compact g stored).map fun u => u.template) ↔ k ∈ stored.map g) := by
  have h1 : ((Compact g stored).map fun u => u.template) =
      firstOccurrences (stored.map g) := by
    have h2 := compact_foldl_templates g stored []
    simpa [Compact, firstOccurrences] using h2
  refine ⟨h1, ?_, ?_⟩
  · rw [h1]
    unfold firstOccurrences
    exact foldl_addNew_nodup _ _ (by simp)
  · intro k
    rw [h1]
    unfold firstOccurrences
    rw [foldl_addNew_mem]
    simp

/-- Expanding the empty destination template appends nothing. -/
theorem goExpandString_empty_template (res src : String)
    (m : List (Option (Nat × Nat))) : goExpandString res "" src m = res := rfl

/-- The key-collection fold of `RewriteAll` is the `addNew` fold over the
rewritten addresses. -/
theorem rewriteFold_eq (r : AddressRewriter) (addresses acc : List String) :
    addresses.foldl
      (fun acc addr =>
        let x := Rewrite r addr
        if acc.contains x then acc else acc ++ [x]) acc =
      (addresses.map (Rewrite r)).foldl addNew acc := by
  induction addresses generalizing acc with
  | nil => rfl
  | cons a as ih =>
    simp only [List.foldl_cons, List.map_cons]
    rw [ih]
    congr 1
    unfold addNew
    by_cases hx : Rewrite r a ∈ acc
    · rw [if_pos (List.elem_eq_true_of_mem hx), if_pos hx]
    · rw [if_neg (fun hcontains => hx (List.mem_of_elem_eq_true hcontains)), if_neg hx]

/-- C8 counterexample: a set source regex with an unset (empty)
destination template does not disable rewriting — `Rewrite` maps a
matching address to the empty expansion, and `RewriteAll` returns `[""]`
instead of the unchanged address. -/
theorem rewrite_empty_dest_not_unchanged :
    Rewrite emptyDestRewriter "a@b" = "" ∧
    RewriteAll emptyDestRewriter ["a@b"] = [""] ∧
    "" ≠ "a@b" := by
  refine ⟨rfl, rfl, by decide⟩

/-- C8 amended: `rewrite_all` returns the per-address rewrites with
duplicates removed and sorted lexicographically; an unset source regex
(or a non-matching one) leaves an address unchanged; but an unset (empty)
destination template does not disable rewriting — a matching address is
rewritten to the empty string. -/
theorem rewriteAll_sorted_dedup (r : AddressRewriter) (addresses : List String)
    (re : GoRegexp) (a : String) :
    (RewriteAll r addresses).Sorted (fun x y => x ≤ y) ∧
    (RewriteAll r addresses).Nodup ∧
    (∀ x, x ∈ RewriteAll r addresses ↔ x ∈ addresses.map (Rewrite r)) ∧
    (r.source = none → Rewrite r a = a) ∧
    (re.matchString a = true →
      Rewrite { source := some re, dest := "" } a = "") := by
  refine ⟨?_, ?_, ?_, ?_, ?_⟩
  · unfold RewriteAll
    exact List.sorted_insertionSort _ _
  · unfold RewriteAll
    apply (List.Perm.nodup_iff (List.perm_insertionSort _ _)).mpr
    rw [rewriteFold_eq]
    exact foldl_addNew_nodup _ _ (by simp)
  · intro x
    unfold RewriteAll
    rw [List.Perm.mem_iff (List.perm_insertionSort _ _)]
    rw [rewriteFold_eq]
    rw [foldl_addNew_mem]
    simp
  · intro hs
    simp [Rewrite, hs]
  · intro hm
    have hfold : ∀ (ms : List (List (Option (Nat × Nat)))) (init : String),
        ms.foldl (fun res mm => goExpandString res "" a mm) init = init := by
      intro ms
      induction ms with
      | nil => intro init; rfl
      | cons mm ms ih =>
        intro init
        rw [List.foldl_cons, goExpandString_empty_template]
        exact ih init
    simp only [Rewrite, hm, Bool.not_true, Bool.false_eq_true, if_false]
    exact hfold _ ""

/-- Witness for C8's amended theorem: a concrete rewriter and address for
each hypothesis-bearing part — the unset-source rewriter leaves `"B@x"`
unchanged, and a matching regex with empty destination rewrites `"a@b"`
to the empty string. -/
theorem rewriteAll_sorted_dedup_witness :
    Rewrite { source := none, dest := "y" } "B@x" = "B@x" ∧
    Rewrite { source := some dotStarRegexp, dest := "" } "a@b" = "" ∧
    ("x" ∈ RewriteAll { source := none, dest := "y" } ["b", "x", "b"] ↔
      "x" ∈ ["b", "x", "b"].map (Rewrite { source := none, dest := "y" })) :=
  ⟨(rewriteAll_sorted_dedup { source := none, dest := "y" } [] dotStarRegexp "B@x").2.2.2.1 rfl,
   (rewriteAll_sorted_dedup { source := none, dest := "y" } [] dotStarRegexp "a@b").2.2.2.2 rfl,
   (rewriteAll_sorted_dedup { source := none, dest := "y" } ["b", "x", "b"]
      dotStarRegexp "a@b").2.2.1 "x"⟩

end Failmail
